import Mathlib

/-!
# Verification of the go-containerregistry in-process registry

Shallow embedding of `pkg/registry` (the capability-based handler variant:
`blobs.handle` with the `memHandler` backend, `manifests.handle`,
`manifests.handleCatalog`) together with the crypto and helper layers the
handlers depend on.

Conventions:
* Go byte slices are `List Nat` (each element a byte value).
* Go maps are association lists `List (String × α)`; `insertA` models
  `m[k] = v` (replace-or-append) and `eraseA` models `delete(m, k)`.
* Go's `crypto/sha256` is implemented bit-faithfully on `List Nat`
  (FIPS 180-4), executable by the kernel.
-/

deriving instance DecidableEq for Except

namespace Reg

/-! ## Association lists modelling Go maps -/

/-- `m[k]` read for a Go map: the value at `k`, if present. -/
def lookupA {α : Type} : List (String × α) → String → Option α
  | [], _ => none
  | (k', v) :: rest, k => if k' = k then some v else lookupA rest k

/-- `m[k] = v` for a Go map: replace the binding if present, else append. -/
def insertA {α : Type} : List (String × α) → String → α → List (String × α)
  | [], k, v => [(k, v)]
  | (k', v') :: rest, k, v =>
    if k' = k then (k, v) :: rest else (k', v') :: insertA rest k v

/-- `delete(m, k)` for a Go map: remove every binding of `k`. -/
def eraseA {α : Type} (m : List (String × α)) (k : String) : List (String × α) :=
  m.filter (fun p => !(p.1 = k))

/-! ## SHA-256 (FIPS 180-4), as used via Go's `crypto/sha256.Sum256` -/

/-- 2^32, the word modulus. -/
def M32 : Nat := 4294967296

/-- 32-bit right rotation (inputs are words `< 2^32`). -/
def rotr (n x : Nat) : Nat := ((x >>> n) ||| (x <<< (32 - n))) % M32

def ch (x y z : Nat) : Nat := (x &&& y) ^^^ ((x ^^^ 4294967295) &&& z)

def maj (x y z : Nat) : Nat := (x &&& y) ^^^ (x &&& z) ^^^ (y &&& z)

def bigSigma0 (x : Nat) : Nat := rotr 2 x ^^^ rotr 13 x ^^^ rotr 22 x

def bigSigma1 (x : Nat) : Nat := rotr 6 x ^^^ rotr 11 x ^^^ rotr 25 x

def smallSigma0 (x : Nat) : Nat := rotr 7 x ^^^ rotr 18 x ^^^ (x >>> 3)

def smallSigma1 (x : Nat) : Nat := rotr 17 x ^^^ rotr 19 x ^^^ (x >>> 10)

/-- The SHA-256 round constants K[0..63]. -/
def K256 : List Nat :=
  [1116352408, 1899447441, 3049323471, 3921009573,
   961987163, 1508970993, 2453635748, 2870763221,
   3624381080, 310598401, 607225278, 1426881987,
   1925078388, 2162078206, 2614888103, 3248222580,
   3835390401, 4022224774, 264347078, 604807628,
   770255983, 1249150122, 1555081692, 1996064986,
   2554220882, 2821834349, 2952996808, 3210313671,
   3336571891, 3584528711, 113926993, 338241895,
   666307205, 773529912, 1294757372, 1396182291,
   1695183700, 1986661051, 2177026350, 2456956037,
   2730485921, 2820302411, 3259730800, 3345764771,
   3516065817, 3600352804, 4094571909, 275423344,
   430227734, 506948616, 659060556, 883997877,
   958139571, 1322822218, 1537002063, 1747873779,
   1955562222, 2024104815, 2227730452, 2361852424,
   2428436474, 2756734187, 3204031479, 3329325298]

/-- The eight working variables / hash state words. -/
structure Digest8 where
  a : Nat
  b : Nat
  c : Nat
  d : Nat
  e : Nat
  f : Nat
  g : Nat
  h : Nat
deriving DecidableEq, Repr

/-- The SHA-256 initial hash value H(0). -/
def H0 : Digest8 :=
  ⟨1779033703, 3144134277, 1013904242, 2773480762,
   1359893119, 2600822924, 528734635, 1541459225⟩

/-- Big-endian byte-length field of the padding: `8*len` as 8 bytes. -/
def lenBytes (n : Nat) : List Nat :=
  [(n >>> 56) % 256, (n >>> 48) % 256, (n >>> 40) % 256, (n >>> 32) % 256,
   (n >>> 24) % 256, (n >>> 16) % 256, (n >>> 8) % 256, n % 256]

/-- SHA-256 padding: append `0x80`, zero bytes to 56 mod 64, then the bit length. -/
def padMsg (msg : List Nat) : List Nat :=
  msg ++ 128 :: List.replicate ((119 - msg.length % 64) % 64) 0 ++ lenBytes (8 * msg.length)

/-- Big-endian packing of bytes (taken mod 256) into 32-bit words. -/
def bytesToWords : List Nat → List Nat
  | b0 :: b1 :: b2 :: b3 :: rest =>
    (((b0 % 256) <<< 24) + ((b1 % 256) <<< 16) + ((b2 % 256) <<< 8) + (b3 % 256)) ::
      bytesToWords rest
  | _ => []

/-- Split a word list into 16-word blocks (`fuel` bounds the recursion so the
    definition stays structural and kernel-reducible). -/
def toBlocksF : Nat → List Nat → List (List Nat)
  | 0, _ => []
  | _, [] => []
  | fuel + 1, ws => ws.take 16 :: toBlocksF fuel (ws.drop 16)

/-- One step of the message-schedule extension; `wrev` holds W in reverse. -/
def stepW (wrev : List Nat) : Nat :=
  (smallSigma1 (wrev.getD 1 0) + wrev.getD 6 0 + smallSigma0 (wrev.getD 14 0) +
    wrev.getD 15 0) % M32

def extendW : List Nat → Nat → List Nat
  | wrev, 0 => wrev
  | wrev, k + 1 => extendW (stepW wrev :: wrev) k

/-- The 64-entry message schedule W of one block. -/
def msgSchedule (block : List Nat) : List Nat := (extendW block.reverse 48).reverse

/-- One SHA-256 compression round with key/schedule pair `kw`. -/
def round1 (st : Digest8) (kw : Nat × Nat) : Digest8 :=
  let t1 := (st.h + bigSigma1 st.e + ch st.e st.f st.g + kw.1 + kw.2) % M32
  let t2 := (bigSigma0 st.a + maj st.a st.b st.c) % M32
  ⟨(t1 + t2) % M32, st.a, st.b, st.c, (st.d + t1) % M32, st.e, st.f, st.g⟩

/-- Compression of one 16-word block into the running hash state. -/
def compressBlock (hst : Digest8) (block : List Nat) : Digest8 :=
  let fin := (K256.zip (msgSchedule block)).foldl round1 hst
  ⟨(hst.a + fin.a) % M32, (hst.b + fin.b) % M32, (hst.c + fin.c) % M32, (hst.d + fin.d) % M32,
   (hst.e + fin.e) % M32, (hst.f + fin.f) % M32, (hst.g + fin.g) % M32, (hst.h + fin.h) % M32⟩

def sha256Words (msg : List Nat) : Digest8 :=
  let ws := bytesToWords (padMsg msg)
  (toBlocksF ws.length ws).foldl compressBlock H0

/-- Big-endian serialization of one hash word into 4 bytes. -/
def wordBytes (w : Nat) : List Nat :=
  [(w >>> 24) % 256, (w >>> 16) % 256, (w >>> 8) % 256, w % 256]

/-- `sha256.Sum256`: the 32-byte SHA-256 digest of a byte sequence. -/
def sha256 (msg : List Nat) : List Nat :=
  wordBytes (sha256Words msg).a ++ wordBytes (sha256Words msg).b ++
  wordBytes (sha256Words msg).c ++ wordBytes (sha256Words msg).d ++
  wordBytes (sha256Words msg).e ++ wordBytes (sha256Words msg).f ++
  wordBytes (sha256Words msg).g ++ wordBytes (sha256Words msg).h

/-- Lower-case hex digit for a value `< 16`, as `hex.EncodeToString` emits. -/
def hexDigit (n : Nat) : Char :=
  if n < 10 then Char.ofNat (48 + n) else Char.ofNat (87 + n)

/-- `hex.EncodeToString`: two lower-case hex digits per byte. -/
def hexChars (bytes : List Nat) : List Char :=
  bytes.flatMap (fun b => [hexDigit (b / 16), hexDigit (b % 16)])

/-- The digest string `"sha256:" + hex.EncodeToString(sha256.Sum256(b))` the
    handlers compute from a body `b`. -/
def hexDigest (b : List Nat) : String :=
  String.mk ("sha256:".toList ++ hexChars (sha256 b))

/-! ## Digests, media types, errors

`pkg/v1.Hash`, `internal/verify`, `pkg/v1/types.MediaType` and the
`regErr*` constants of `pkg/registry/error.go` are referenced by the
handlers but their defining files are not in the source snapshot, so they
are modelled from the spec (sections 3 "Digest", 4.6 "Verifying reader",
6 "Error envelope" and the media-type classification of section 2/15%). -/

/-- Modelled from the spec: `pkg/v1.Hash`, a digest as a pair
    `(algorithm, hex)` with canonical string form `algorithm:hex`. -/
structure Hash where
  algorithm : String
  hex : String
deriving DecidableEq, Repr

/-- `Hash.String()`: the canonical `algorithm:hex` form. -/
def Hash.str (h : Hash) : String := h.algorithm ++ ":" ++ h.hex

def isHexDigitChar (c : Char) : Bool :=
  ('0' ≤ c && c ≤ '9') || ('a' ≤ c && c ≤ 'f')

/-- Modelled from the spec: `pkg/v1.NewHash` parsing of `sha256:<hex>`;
    only `sha256` is required and the hex length must be 64. -/
def newHash (s : String) : Option Hash :=
  if s.toList.take 7 = "sha256:".toList ∧ (s.toList.drop 7).length = 64 ∧
      (s.toList.drop 7).all isHexDigitChar then
    some ⟨"sha256", String.mk (s.toList.drop 7)⟩
  else none

/-- Modelled from the spec: the verifying reader of `internal/verify`
    (section 4.6). Reading a wrapped source of bytes `b` to EOF yields `b`
    when both the byte count and the digest match the expectation, and a
    typed verification error otherwise (size `-1` means unknown size, no
    size check). -/
def verifyBytes (b : List Nat) (size : Int) (h : Hash) : Except String (List Nat) :=
  if size ≠ -1 ∧ size ≠ (b.length : Int) then .error "size mismatch"
  else if hexDigest b ≠ h.str then .error "digest mismatch"
  else .ok b

/-- Modelled from the spec: `types.MediaType.IsIndex` — the known index /
    manifest-list media types. -/
def isIndexMT (mt : String) : Bool :=
  mt = "application/vnd.oci.image.index.v1+json" ||
  mt = "application/vnd.docker.distribution.manifest.list.v2+json"

/-- Modelled from the spec: `types.MediaType.IsImage` — the known image
    manifest media types. -/
def isImageMT (mt : String) : Bool :=
  mt = "application/vnd.oci.image.manifest.v1+json" ||
  mt = "application/vnd.docker.distribution.manifest.v2+json"

def hasPrefixChars : List Char → List Char → Bool
  | _, [] => true
  | [], _ :: _ => false
  | c :: cs, d :: ds => c = d && hasPrefixChars cs ds

def hasSubChars : List Char → List Char → Bool
  | [], needle => needle.isEmpty
  | c :: rest, needle => hasPrefixChars (c :: rest) needle || hasSubChars rest needle

/-- `strings.HasPrefix` on Go strings, byte-for-byte. -/
def strHasPrefixB (s pre : String) : Bool := hasPrefixChars s.toList pre.toList

/-- Modelled from the spec: `types.MediaType.IsDistributable` — a media
    type not marked non-distributable. -/
def isDistributableMT (mt : String) : Bool :=
  !(hasSubChars mt.toList "nondistributable".toList)

/-- The registry error envelope: HTTP status, error code, message
    (`regError` of the source). -/
structure RegError where
  status : Nat
  code : String
  message : String
deriving DecidableEq, Repr

/-- Modelled from the spec: 404 `BLOB_UNKNOWN` for an unknown blob. -/
def regErrBlobUnknown : RegError := ⟨404, "BLOB_UNKNOWN", "Unknown blob"⟩

/-- Modelled from the spec: 400 `DIGEST_INVALID` for a digest verify failure. -/
def regErrDigestMismatch : RegError :=
  ⟨400, "DIGEST_INVALID", "digest does not match contents"⟩

/-- Modelled from the spec: 400 `NAME_INVALID` for a digest parse failure
    on upload (`regErrDigestInvalid` of the source). -/
def regErrDigestInvalid : RegError := ⟨400, "NAME_INVALID", "invalid digest"⟩

/-- Modelled from the spec: 404 `MANIFEST_UNKNOWN` for an unknown manifest. -/
def regErrManifestUnknown : RegError := ⟨404, "MANIFEST_UNKNOWN", "Unknown manifest"⟩

/-- Modelled from the spec: 500 `INTERNAL_ERROR` carrying the error's message. -/
def regErrInternal (msg : String) : RegError := ⟨500, "INTERNAL_ERROR", msg⟩

/-- Modelled from the spec: 404 `UNSUPPORTED` when the backend lacks a
    capability (never hit by the all-capability `memHandler`). -/
def regErrUnsupported : RegError := ⟨404, "UNSUPPORTED", "Unsupported operation"⟩

/-! ## Registry state and the `memHandler` backend -/

/-- A stored manifest: `(contentType, blob)` — `manifest` of the source. -/
structure Manifest where
  contentType : String
  blob : List Nat
deriving DecidableEq, Repr

/-- The `memHandler` state: `blobs`, `uploads` (both keyed by string) and
    `manifests` (keyed by repo, then by tag-or-digest). The maps are those
    allocated at registry construction, so the `nil`-map branches of the
    source are not reachable and are elided. -/
structure MemState where
  blobs : List (String × List Nat)
  uploads : List (String × List Nat)
  manifests : List (String × List (String × Manifest))
deriving DecidableEq, Repr

/-- The freshly constructed registry state: all maps empty. -/
def initState : MemState := ⟨[], [], []⟩

/-- `memHandler.Stat`: the blob's size, or not-found. -/
def memStat (st : MemState) (h : Hash) : Option Nat :=
  (lookupA st.blobs h.str).map List.length

/-- `memHandler.Get`: the blob's bytes, or not-found. -/
def memGet (st : MemState) (h : Hash) : Option (List Nat) :=
  lookupA st.blobs h.str

/-- `memHandler.Put` composed with the engine's verifying reader: reading
    the wrapped body to EOF verifies `(size, digest)`; on success the bytes
    are stored under `h.String()`, on failure nothing is stored and the
    verification error is returned (`errors.As(err, &verify.Error{})` holds). -/
def memPutVerified (st : MemState) (h : Hash) (body : List Nat) (size : Int) :
    Except String Unit × MemState :=
  match verifyBytes body size h with
  | .error e => (.error e, st)
  | .ok all => (.ok (), { st with blobs := insertA st.blobs h.str all })

/-- `memHandler.StatUpload`: `int64(len(m.uploads[uploadID]))` — an absent
    id reads as the empty slice, so this never fails. -/
def memStatUpload (st : MemState) (id : String) : Int :=
  ((lookupA st.uploads id).getD []).length

/-- `memHandler.AppendUpload`: append the chunk, store, return the new size. -/
def memAppendUpload (st : MemState) (id : String) (chunk : List Nat) : Int × MemState :=
  (((lookupA st.uploads id).getD []).length + chunk.length,
   { st with uploads := insertA st.uploads id (((lookupA st.uploads id).getD []) ++ chunk) })

/-- `memHandler.FinalizeUpload`: delete the upload, append the trailing
    bytes, verify the total against `h` and only then publish to blob
    storage. The deletion happens before verification, exactly as in the
    source. -/
def memFinalizeUpload (st : MemState) (id : String) (body : List Nat) (h : Hash) :
    Except String Unit × MemState :=
  let haveB := (lookupA st.uploads id).getD []
  let st1 := { st with uploads := eraseA st.uploads id }
  let all := haveB ++ body
  match verifyBytes all (all.length : Int) h with
  | .error e => (.error e, st1)
  | .ok allV => (.ok (), { st1 with blobs := insertA st1.blobs h.str allV })

/-- `memHandler.GetManifestByDigest` (and `GetManifestByTag`, which simply
    delegates to it): the manifest stored under `(repo, key)`. The only
    error the in-memory backend produces is not-found (`none`). -/
def memGetManifest (st : MemState) (repo key : String) : Option Manifest :=
  (lookupA st.manifests repo).bind (fun inner => lookupA inner key)

/-- `memHandler.PutManifest`: create the repo's inner map if needed and
    store `mf` under `key`. -/
def memPutManifest (st : MemState) (repo key : String) (mf : Manifest) : MemState :=
  let inner := (lookupA st.manifests repo).getD []
  { st with manifests := insertA st.manifests repo (insertA inner key mf) }

/-- `memHandler.TagManifest`: look the manifest up by `digest` and store a
    copy under `tag`; not-found if the repo or the digest is absent. -/
def memTagManifest (st : MemState) (repo digest tag : String) : Option MemState :=
  match lookupA st.manifests repo with
  | none => none
  | some inner =>
    match lookupA inner digest with
    | none => none
    | some mf => some { st with manifests := insertA st.manifests repo (insertA inner tag mf) }

/-- `memHandler.DeleteManifest`: delete the `(repo, key)` entry; not-found
    if the repo or the key is absent. -/
def memDeleteManifest (st : MemState) (repo key : String) : Option MemState :=
  match lookupA st.manifests repo with
  | none => none
  | some inner =>
    match lookupA inner key with
    | none => none
    | some _ => some { st with manifests := insertA st.manifests repo (eraseA inner key) }

/-! ## HTTP layer -/

/-- The response data a handler emits: status plus the headers and body the
    spec requires (`Content-Length`, `Docker-Content-Digest`, `Content-Type`,
    `Location`, `Range`); `bodyText` carries JSON listing bodies. -/
structure HResp where
  status : Nat
  contentLength : Option Nat
  contentType : Option String
  dockerContentDigest : Option String
  location : Option String
  range : Option String
  body : Option (List Nat)
  bodyText : Option String
deriving DecidableEq, Repr

/-- A response with no headers set. -/
def respEmpty : HResp := ⟨0, none, none, none, none, none, none, none⟩

/-- The `Content-Range` header of a PATCH: absent, unparseable by
    `fmt.Sscanf("%d-%d")`, or parsed into start and end values. -/
inductive CRange
  | absent
  | malformed
  | parsed (start : Int) (stop : Int)
deriving DecidableEq, Repr

/-- `Location` header for an upload id, as built by
    `path.Join("v2", repo, "blobs/uploads", id)` with a leading slash. -/
def uploadLocation (repo id : String) : String :=
  "/v2/" ++ repo ++ "/blobs/uploads/" ++ id

/-- Embedding of `blobs.handle` (the capability-based variant) with the
    `memHandler` backend, for which every interface assertion succeeds and
    the stat fast path is taken. Inputs: the method, the repository joined
    from the path, the last two path elements `target` and `service`, the
    `digest` query (`""` when absent), the parsed `Content-Range` header,
    the request body with its `Content-Length`, and the random id the
    engine would mint for an upload-begin POST. `memHandler` never returns
    a redirect, so the `redirectError` branches are unreachable and elided.
    Returns the response or error envelope, and the resulting state. -/
def blobsHandle (method repo target service digest : String) (cr : CRange)
    (body : List Nat) (contentLength : Int) (rngId : String) (st : MemState) :
    Except RegError HResp × MemState :=
  if method = "HEAD" then
    match newHash target with
    | none => (.error ⟨400, "NAME_INVALID", "invalid digest"⟩, st)
    | some h =>
      match memStat st h with
      | none => (.error regErrBlobUnknown, st)
      | some size =>
        (.ok { respEmpty with
                status := 200
                contentLength := some size
                dockerContentDigest := some h.str }, st)
  else if method = "GET" then
    match newHash target with
    | none => (.error ⟨400, "NAME_INVALID", "invalid digest"⟩, st)
    | some h =>
      match memStat st h with
      | none => (.error regErrBlobUnknown, st)
      | some size =>
        match memGet st h with
        | none => (.error regErrBlobUnknown, st)
        | some b =>
          (.ok { respEmpty with
                  status := 200
                  contentLength := some size
                  dockerContentDigest := some h.str
                  body := some b }, st)
  else if method = "POST" then
    if target ≠ "uploads" then
      (.error ⟨400, "METHOD_UNKNOWN", "POST to /blobs must be followed by /uploads"⟩, st)
    else if digest ≠ "" then
      match newHash digest with
      | none => (.error regErrDigestInvalid, st)
      | some h =>
        match memPutVerified st h body contentLength with
        | (.error _, st') => (.error regErrDigestMismatch, st')
        | (.ok _, st') =>
          (.ok { respEmpty with status := 201, dockerContentDigest := some h.str }, st')
    else
      (.ok { respEmpty with
              status := 202
              location := some (uploadLocation repo rngId)
              range := some "0-0" }, st)
  else if method = "PATCH" then
    if service ≠ "uploads" then
      (.error ⟨400, "METHOD_UNKNOWN", "PATCH to /blobs must be followed by /uploads"⟩, st)
    else
      match cr with
      | .malformed =>
        (.error ⟨416, "BLOB_UPLOAD_UNKNOWN", "We don't understand your Content-Range"⟩, st)
      | .parsed start _ =>
        if start ≠ memStatUpload st target then
          (.error ⟨416, "BLOB_UPLOAD_UNKNOWN", "Your content range doesn't match what we have"⟩,
           st)
        else
          match memAppendUpload st target body with
          | (size, st') =>
            (.ok { respEmpty with
                    status := 204
                    location := some (uploadLocation repo target)
                    range := some ("0-" ++ toString (size - 1)) }, st')
      | .absent =>
        if memStatUpload st target ≠ 0 then
          (.error ⟨400, "BLOB_UPLOAD_INVALID", "Stream uploads after first write are not allowed"⟩,
           st)
        else
          match memAppendUpload st target body with
          | (size, st') =>
            (.ok { respEmpty with
                    status := 204
                    location := some (uploadLocation repo target)
                    range := some ("0-" ++ toString (size - 1)) }, st')
  else if method = "PUT" then
    if service ≠ "uploads" then
      (.error ⟨400, "METHOD_UNKNOWN", "PUT to /blobs must be followed by /uploads"⟩, st)
    else if digest = "" then
      (.error ⟨400, "DIGEST_INVALID", "digest not specified"⟩, st)
    else
      match newHash digest with
      | none => (.error ⟨400, "NAME_INVALID", "invalid digest"⟩, st)
      | some h =>
        match memFinalizeUpload st target body h with
        | (.error e, st') => (.error (regErrInternal e), st')
        | (.ok _, st') =>
          (.ok { respEmpty with status := 201, dockerContentDigest := some h.str }, st')
  else
    (.error ⟨400, "METHOD_UNKNOWN", "We don't understand your method + url"⟩, st)

/-! ## Manifest engine -/

/-- `v1.Descriptor`, restricted to the fields the handler reads (`urls`,
    `annotations`, `platform`, `data` are never consulted). -/
structure Descriptor where
  mediaType : String
  size : Int
  digest : Hash
deriving DecidableEq, Repr

/-- `v1.IndexManifest`, restricted to the fields the handler reads. -/
structure IndexManifest where
  schemaVersion : Int
  mediaType : String
  manifests : List Descriptor
deriving DecidableEq, Repr

/-- The error message `fmt.Sprintf("Sub-manifest %q not found", desc.Digest)`. -/
def subManifestMsg (d : Hash) : String :=
  "Sub-manifest \"" ++ d.str ++ "\" not found"

/-- The constituent check of `manifests.handle` PUT: walk the index's child
    descriptors in order; skip non-distributable children; for a child whose
    media type is a manifest or index, fail with 404 `MANIFEST_UNKNOWN`
    naming it if it is not stored in this repository; blob-typed children
    are only logged. `st1` is the state after the index itself was stored. -/
def checkChildren (st1 : MemState) (repo : String) : List Descriptor → Option RegError
  | [] => none
  | d :: ds =>
    if ¬ isDistributableMT d.mediaType then checkChildren st1 repo ds
    else if isIndexMT d.mediaType || isImageMT d.mediaType then
      match memGetManifest st1 repo d.digest.str with
      | some _ => checkChildren st1 repo ds
      | none => some ⟨404, "MANIFEST_UNKNOWN", subManifestMsg d.digest⟩
    else checkChildren st1 repo ds

/-- The tail of `manifests.handle` PUT: alias the stored digest under the
    target via `TagManifest` (the backend supports tagging), then 201. -/
def manifestsPutTag (st1 : MemState) (repo digest target : String) :
    Except RegError HResp × MemState :=
  match memTagManifest st1 repo digest target with
  | none => (.error regErrManifestUnknown, st1)
  | some st2 =>
    (.ok { respEmpty with status := 201, dockerContentDigest := some digest }, st2)

/-- Embedding of `manifests.handle` with the `memHandler` backend (every
    extension interface is implemented; `GetManifestByTag` delegates to
    `GetManifestByDigest`, so the digest/tag branch of GET and HEAD reads
    the same `(repo, target)` entry either way). `parse` stands for
    `v1.ParseIndexManifest`, i.e. `encoding/json` decoding of the body,
    which is standard-library code outside the repository. -/
def manifestsHandle (parse : List Nat → Except String IndexManifest)
    (method repo target contentType : String) (body : List Nat) (st : MemState) :
    Except RegError HResp × MemState :=
  if method = "GET" then
    match (if strHasPrefixB target "sha256:" then memGetManifest st repo target
           else memGetManifest st repo target) with
    | none => (.error regErrManifestUnknown, st)
    | some mf =>
      (.ok { respEmpty with
              status := 200
              contentLength := some mf.blob.length
              contentType := some mf.contentType
              dockerContentDigest := some (hexDigest mf.blob)
              body := some mf.blob }, st)
  else if method = "HEAD" then
    match (if strHasPrefixB target "sha256:" then memGetManifest st repo target
           else memGetManifest st repo target) with
    | none => (.error regErrManifestUnknown, st)
    | some mf =>
      (.ok { respEmpty with
              status := 200
              contentLength := some mf.blob.length
              contentType := some mf.contentType
              dockerContentDigest := some (hexDigest mf.blob) }, st)
  else if method = "PUT" then
    let digest := hexDigest body
    let mf : Manifest := ⟨contentType, body⟩
    let st1 := memPutManifest st repo digest mf
    if isIndexMT contentType then
      match parse body with
      | .error e => (.error ⟨400, "MANIFEST_INVALID", e⟩, st1)
      | .ok im =>
        match checkChildren st1 repo im.manifests with
        | some e => (.error e, st1)
        | none => manifestsPutTag st1 repo digest target
    else manifestsPutTag st1 repo digest target
  else if method = "DELETE" then
    match memDeleteManifest st repo target with
    | none => (.error regErrManifestUnknown, st)
    | some st' => (.ok { respEmpty with status := 202 }, st')
  else
    (.error ⟨400, "METHOD_UNKNOWN", "We don't understand your method + url"⟩, st)

/-- A manifest lookup outcome from an arbitrary backend: not-found, some
    other backend error, or the manifest. -/
inductive LookupErr
  | notFound
  | other (msg : String)
deriving DecidableEq, Repr

/-- The continuation of `manifests.handle` GET/HEAD after the backend
    lookup, for an arbitrary backend result. The source checks only
    `err == errNotFound` and then unconditionally dereferences the manifest
    pointer (`sha256.Sum256(mf.blob)`); when the backend returned any other
    error the pointer is nil and the handler panics — modelled as `none`.
    `head` selects the HEAD variant (no body). -/
def manifestLookupRespond (head : Bool) (res : Except LookupErr Manifest) :
    Option (Except RegError HResp) :=
  match res with
  | .error .notFound => some (.error regErrManifestUnknown)
  | .error (.other _) => none
  | .ok mf =>
    some (.ok { respEmpty with
                 status := 200
                 contentLength := some mf.blob.length
                 contentType := some mf.contentType
                 dockerContentDigest := some (hexDigest mf.blob)
                 body := if head then none else some mf.blob })

/-! ## Catalog -/

/-- Go's byte-wise string comparison (`s <= t` of `sort.Strings`), on the
    character lists. -/
def charsLeB : List Char → List Char → Bool
  | [], _ => true
  | _ :: _, [] => false
  | c :: cs, d :: ds => if c = d then charsLeB cs ds else decide (c < d)

/-- `s <= t` on Go strings. -/
def strLe (s t : String) : Prop := charsLeB s.toList t.toList = true

instance strLe.dec : DecidableRel strLe :=
  fun s t => instDecidableEqBool (charsLeB s.toList t.toList) true

/-- `sort.Strings`: lexicographic ascending sort. -/
def sortStrings (l : List String) : List String := List.insertionSort strLe l

/-- `memHandler.Catalog`: take the first `n` repository keys in the order
    the Go map presents them (`iter`), then sort. Go map iteration order is
    unspecified, so `iter` is an explicit parameter constrained by
    `isIterationOf`. -/
def memCatalog (iter : List String) (n : Nat) : List String :=
  sortStrings (iter.take n)

/-- `iter` is a possible Go-map iteration order of the repositories of `st`:
    a permutation of the keys of `st.manifests`. -/
def isIterationOf (iter : List String) (st : MemState) : Prop :=
  iter.Perm (st.manifests.map Prod.fst)

/-- `json.Marshal` of the `catalog` struct: a `nil` repository slice
    marshals as `null`; repository names here contain no characters that
    JSON escaping would rewrite. -/
def quoteJoin : List String → String
  | [] => ""
  | [s] => "\"" ++ s ++ "\""
  | s :: rest => "\"" ++ s ++ "\"," ++ quoteJoin rest

def marshalCatalog : List String → String
  | [] => "\x7b\"repositories\":null\x7d"
  | rs => "\x7b\"repositories\":[" ++ quoteJoin rs ++ "]\x7d"

/-- Embedding of `manifests.handleCatalog` over the `memHandler` backend:
    `n` is the parsed `?n=` query (default 10000 when absent); `iter` is
    the backend's map iteration order. `memHandler.Catalog` never returns
    an error, so the `regErrInternal` branch is unreachable and elided.
    The catalog endpoint does not change the state. -/
def handleCatalog (method : String) (n : Nat) (iter : List String) :
    Except RegError HResp :=
  if method = "GET" then
    .ok { respEmpty with
           status := 200
           contentLength := some (marshalCatalog (memCatalog iter n)).length
           bodyText := some (marshalCatalog (memCatalog iter n)) }
  else
    .error ⟨400, "METHOD_UNKNOWN", "We don't understand your method + url"⟩

/-! ## Concrete fixtures -/

/-- A parse function for bodies that are not JSON indexes (never consulted
    on non-index content types). -/
def parseNone : List Nat → Except String IndexManifest := fun _ => .error "not an index"

/-- Upload state holding `"fo"` under upload id `"1"`. -/
def stC1 : MemState := ⟨[], [("1", [102, 111])], []⟩

/-- The finalizing PUT of upload `"1"` with trailing byte `"o"` against the
    digest of `"bar"` (a mismatch: the contents are `"foo"`). -/
def c1Finalize : Except RegError HResp × MemState :=
  blobsHandle "PUT" "r" "1" "uploads" (hexDigest [98, 97, 114]) .absent [111] 1 "0" stC1

/-- A 64-`a` digest-form target key that is not the digest of the byte
    `"x"` body used below. -/
def targ64 : String :=
  "sha256:aaaaaaaaaaaaaaaaaaaaaaaaaaaaaaaaaaaaaaaaaaaaaaaaaaaaaaaaaaaaaaaa"

/-- PUT of body `"x"` to the manifest target `targ64` (a `sha256:` key that
    does not match the body's digest). -/
def c2Put : Except RegError HResp × MemState :=
  manifestsHandle parseNone "PUT" "repo" targ64
    "application/vnd.oci.image.manifest.v1+json" [120] initState

/-- Upload state holding `"he"` under upload id `"1"`. -/
def stC3 : MemState := ⟨[], [("1", [104, 101])], []⟩

/-- The successful finalizing PUT of upload `"1"` (digest of `"he"`). -/
def c3Finalize : Except RegError HResp × MemState :=
  blobsHandle "PUT" "r" "1" "uploads" (hexDigest [104, 101]) .absent [] 0 "0" stC3

/-- A ranged PATCH referencing the terminated upload id `"1"`. -/
def c3Patch : Except RegError HResp × MemState :=
  blobsHandle "PATCH" "r" "1" "uploads" "" (.parsed 0 1) [104, 105] 2 "0" c3Finalize.2

/-- A manifest stored under tag `"t"` in each of the repos `z`, `a`, `m`. -/
def stZAM : MemState :=
  ⟨[], [],
   [("z", [("t", ⟨"application/vnd.oci.image.manifest.v1+json", [123, 125]⟩)]),
    ("a", [("t", ⟨"application/vnd.oci.image.manifest.v1+json", [123, 125]⟩)]),
    ("m", [("t", ⟨"application/vnd.oci.image.manifest.v1+json", [123, 125]⟩)])]⟩

/-- The hash-matches-key invariant of C2: every manifest stored under a
    `sha256:`-prefixed key hashes to that key. -/
def manifestDigestInvariant (st : MemState) : Prop :=
  ∀ repo key mf, memGetManifest st repo key = some mf →
    strHasPrefixB key "sha256:" = true → hexDigest mf.blob = key

/-- The in-order chunked upload of C7: one ranged PATCH per chunk, each
    with `Content-Range` start equal to the server's current size of the
    upload (as a client following the returned `Range` headers sends). -/
def runPatches (repo id rngId : String) : MemState → List (List Nat) → MemState
  | st, [] => st
  | st, c :: cs =>
    runPatches repo id rngId
      (blobsHandle "PATCH" repo id "uploads" ""
        (.parsed (memStatUpload st id) (memStatUpload st id + c.length - 1)) c
        (c.length : Int) rngId st).2 cs

/-- A child descriptor that triggers the constituent check: distributable,
    manifest- or index-typed, and not stored in this repository. -/
def childMissing (st1 : MemState) (repo : String) (d : Descriptor) : Prop :=
  isDistributableMT d.mediaType = true ∧
  (isIndexMT d.mediaType || isImageMT d.mediaType) = true ∧
  memGetManifest st1 repo d.digest.str = none

/-! ## Theorems -/

theorem lookupA_insertA_self {α : Type} (m : List (String × α)) (k : String) (v : α) :
    lookupA (insertA m k v) k = some v := by
  induction m with
  | nil => simp [insertA, lookupA]
  | cons p rest ih =>
    by_cases h : p.1 = k
    · simp [insertA, h, lookupA]
    · simp [insertA, h, lookupA, ih]

theorem lookupA_insertA_ne {α : Type} (m : List (String × α)) (k k' : String) (v : α)
    (h : k ≠ k') : lookupA (insertA m k v) k' = lookupA m k' := by
  induction m with
  | nil => simp [insertA, lookupA, h]
  | cons p rest ih =>
    by_cases hp : p.1 = k
    · simp [insertA, hp, lookupA, h]
    · simp [insertA, hp, lookupA, ih]

theorem insertA_insertA {α : Type} (m : List (String × α)) (k : String) (v v' : α) :
    insertA (insertA m k v) k v' = insertA m k v' := by
  induction m with
  | nil => simp [insertA]
  | cons p rest ih =>
    by_cases hp : p.1 = k
    · simp [insertA, hp]
    · simp [insertA, hp, ih]

theorem lookupA_none_forall {α : Type} (m : List (String × α)) (k : String)
    (h : lookupA m k = none) : ∀ p ∈ m, p.1 ≠ k := by
  induction m with
  | nil => simp
  | cons p rest ih =>
    intro q hq
    rcases List.mem_cons.mp hq with hq | hq
    · subst hq
      intro hk
      simp [lookupA, hk] at h
    · apply ih _ q hq
      by_cases hp : p.1 = k
      · simp [lookupA, hp] at h
      · simpa [lookupA, hp] using h

theorem eraseA_of_lookup_none {α : Type} (m : List (String × α)) (k : String)
    (h : lookupA m k = none) : eraseA m k = m := by
  have hall := lookupA_none_forall m k h
  induction m with
  | nil => simp [eraseA]
  | cons p rest ih =>
    have hp : p.1 ≠ k := hall p (by simp)
    have hrest : lookupA rest k = none := by
      simpa [lookupA, hp] using h
    simp only [eraseA, List.filter] at ih ⊢
    simp [hp, ih hrest (fun q hq => hall q (by simp [hq]))]

theorem eraseA_insertA_fresh {α : Type} (m : List (String × α)) (k : String) (v : α)
    (h : lookupA m k = none) : eraseA (insertA m k v) k = m := by
  induction m with
  | nil => simp [insertA, eraseA]
  | cons p rest ih =>
    by_cases hp : p.1 = k
    · simp [lookupA, hp] at h
    · have hrest : lookupA rest k = none := by simpa [lookupA, hp] using h
      simp only [insertA, hp, if_false, eraseA, List.filter] at ih ⊢
      simp [hp, ih hrest]

theorem lookupA_eraseA_self {α : Type} (m : List (String × α)) (k : String) :
    lookupA (eraseA m k) k = none := by
  induction m with
  | nil => simp [eraseA, lookupA]
  | cons p rest ih =>
    by_cases hp : p.1 = k
    · simpa [eraseA, List.filter, hp] using ih
    · simp only [eraseA, List.filter] at ih ⊢
      simp [hp, lookupA, ih]

theorem lookupA_eraseA_ne {α : Type} (m : List (String × α)) (k k' : String)
    (h : k ≠ k') : lookupA (eraseA m k) k' = lookupA m k' := by
  induction m with
  | nil => simp [eraseA, lookupA]
  | cons p rest ih =>
    by_cases hp : p.1 = k
    · simp only [eraseA, List.filter] at ih ⊢
      simp [hp, lookupA, h, ih]
    · simp only [eraseA, List.filter] at ih ⊢
      by_cases hp' : p.1 = k'
      · simp [hp, lookupA, hp', Ne.symm h]
      · simp [hp, lookupA, hp', ih]

/-! ## Digest-string facts -/
theorem hexDigit_isHex {n : Nat} (h : n < 16) : isHexDigitChar (hexDigit n) = true := by
  interval_cases n <;> decide

theorem sha256_bytes_lt (b : List Nat) : ∀ x ∈ sha256 b, x < 256 := by
  intro x hx
  simp only [sha256, wordBytes, List.mem_append, List.mem_cons, List.not_mem_nil, or_false] at hx
  omega

theorem hexChars_all_hex {l : List Nat} (h : ∀ x ∈ l, x < 256) :
    (hexChars l).all isHexDigitChar = true := by
  simp only [hexChars, List.all_eq_true, List.mem_flatMap]
  rintro c ⟨b, hb, hc⟩
  have hb256 : b < 256 := h b hb
  have h1 : b / 16 < 16 := by omega
  have h2 : b % 16 < 16 := Nat.mod_lt _ (by norm_num)
  rcases List.mem_cons.mp hc with rfl | hc'
  · exact hexDigit_isHex h1
  · rcases List.mem_cons.mp hc' with rfl | hc''
    · exact hexDigit_isHex h2
    · simp at hc''

theorem hexChars_length (l : List Nat) : (hexChars l).length = 2 * l.length := by
  induction l with
  | nil => simp [hexChars]
  | cons b rest ih =>
    simp only [hexChars, List.flatMap_cons, List.length_append] at ih ⊢
    simp [ih]
    omega

theorem sha256_length (b : List Nat) : (sha256 b).length = 32 := by
  simp [sha256, wordBytes]

theorem toList_hexDigest (b : List Nat) :
    (hexDigest b).toList = "sha256:".toList ++ hexChars (sha256 b) := rfl

theorem newHash_hexDigest (b : List Nat) :
    newHash (hexDigest b) = some ⟨"sha256", String.mk (hexChars (sha256 b))⟩ := by
  have hlen : ("sha256:".toList).length = 7 := by decide
  have htake : ((hexDigest b).toList).take 7 = "sha256:".toList := by
    rw [toList_hexDigest, ← hlen, List.take_left]
  have hdrop : ((hexDigest b).toList).drop 7 = hexChars (sha256 b) := by
    rw [toList_hexDigest, ← hlen, List.drop_left]
  have hhexlen : (hexChars (sha256 b)).length = 64 := by
    rw [hexChars_length, sha256_length]
  have hall : (hexChars (sha256 b)).all isHexDigitChar = true :=
    hexChars_all_hex (sha256_bytes_lt b)
  simp [newHash, htake, hdrop, hhexlen, List.all_eq_true] at *
  intro c hc
  exact hall c hc

theorem hashStr_hexDigest (b : List Nat) :
    (Hash.str ⟨"sha256", String.mk (hexChars (sha256 b))⟩) = hexDigest b := by
  show "sha256" ++ ":" ++ String.mk (hexChars (sha256 b)) = hexDigest b
  apply String.ext
  show ("sha256".toList ++ ":".toList) ++ hexChars (sha256 b) = "sha256:".toList ++ hexChars (sha256 b)
  rfl

theorem hexDigest_ne_empty (b : List Nat) : hexDigest b ≠ "" := by
  intro h
  have := congrArg String.toList h
  rw [toList_hexDigest] at this
  simp at this

theorem hasPrefixChars_append (p rest : List Char) : hasPrefixChars (p ++ rest) p = true := by
  induction p with
  | nil => cases rest <;> rfl
  | cons c cs ih => simp [hasPrefixChars, ih]

theorem strHasPrefixB_hexDigest (b : List Nat) :
    strHasPrefixB (hexDigest b) "sha256:" = true := by
  show hasPrefixChars (hexDigest b).toList ("sha256:".toList) = true
  rw [toList_hexDigest]
  exact hasPrefixChars_append _ _

/-- C1: a chunked upload finalized by PUT whose accumulated body does not
    hash to the supplied digest is rejected with HTTP 500 `INTERNAL_ERROR`
    (the handler wraps the `FinalizeUpload` verification error in
    `regErrInternal` without the `verify.Error` check the monolithic POST
    path performs), not with the claimed 400 `DIGEST_INVALID`; no blob is
    observable at the digest afterwards (GET yields `BLOB_UNKNOWN`). -/
theorem C1_finalize_mismatch_yields_500 :
    c1Finalize.1 = .error (regErrInternal "digest mismatch") ∧
    c1Finalize.1 ≠ .error regErrDigestMismatch ∧
    (regErrInternal "digest mismatch").status = 500 ∧
    lookupA c1Finalize.2.blobs (hexDigest [98, 97, 114]) = none ∧
    (blobsHandle "GET" "r" (hexDigest [98, 97, 114]) "blobs" "" .absent [] 0 "0"
        c1Finalize.2).1 = .error regErrBlobUnknown := by
  set_option maxRecDepth 10000 in decide

/-- C2 counterexample: the PUT handler aliases the manifest under the
    target unconditionally — also when the target is a `sha256:` key — so a
    PUT of body `"x"` to target `targ64` succeeds and stores the manifest
    under the key `targ64` even though `sha256("x") ≠ targ64`: a reachable
    state violates the hash-matches-key invariant, and the alias is created
    for a non-tag target. -/
theorem C2_sha256_target_alias_breaks_invariant :
    c2Put.1 = .ok { respEmpty with
                     status := 201
                     dockerContentDigest := some (hexDigest [120]) } ∧
    strHasPrefixB targ64 "sha256:" = true ∧
    memGetManifest c2Put.2 "repo" targ64 =
      some ⟨"application/vnd.oci.image.manifest.v1+json", [120]⟩ ∧
    hexDigest [120] ≠ targ64 := by
  set_option maxRecDepth 10000 in decide

/-- C3 counterexample: after upload `"1"` is terminated by a successful
    finalizing PUT, a ranged PATCH referencing the id with start offset 0
    does NOT fail with 416 `BLOB_UPLOAD_UNKNOWN` — it succeeds with 204 and
    re-creates the upload, because `memHandler.StatUpload` reports size 0
    (not an error) for unknown ids. -/
theorem C3_patch_after_finalize_succeeds :
    c3Finalize.1 = .ok { respEmpty with
                          status := 201
                          dockerContentDigest := some (hexDigest [104, 101]) } ∧
    c3Finalize.2.uploads = [] ∧
    c3Patch.1 = .ok { respEmpty with
                       status := 204
                       location := some (uploadLocation "r" "1")
                       range := some "0-1" } ∧
    lookupA c3Patch.2.uploads "1" = some [104, 105] := by
  set_option maxRecDepth 10000 in decide

/-- C4: when the backend's manifest lookup fails with any error other than
    not-found, the GET/HEAD handler does not produce the claimed 500
    `INTERNAL_ERROR` envelope: it checks only `err == errNotFound` and then
    dereferences the nil manifest pointer, i.e. it panics (`none`). -/
theorem C4_other_backend_error_panics (msg : String) :
    manifestLookupRespond false (.error (.other msg)) = none ∧
    manifestLookupRespond true (.error (.other msg)) = none ∧
    manifestLookupRespond false (.error (.other msg)) ≠
      some (.error (regErrInternal msg)) :=
  ⟨rfl, rfl, by simp [manifestLookupRespond]⟩

/-- C5 counterexample: with repositories `z`, `a`, `m` stored, `["z", "a",
    "m"]` is a possible Go-map iteration order, and under it
    `GET /v2/_catalog?n=2` returns `{"repositories":["a","z"]}`, not the
    claimed `{"repositories":["a","m"]}`: the `n` cap is applied to the
    unsorted iteration order before sorting, so the result is not the first
    `n` of the sorted order and is not deterministic. -/
theorem C5_catalog_caps_before_sorting :
    isIterationOf ["z", "a", "m"] stZAM ∧
    handleCatalog "GET" 2 ["z", "a", "m"] =
      .ok { respEmpty with
             status := 200
             contentLength := some 26
             bodyText := some "\x7b\"repositories\":[\"a\",\"z\"]\x7d" } ∧
    (handleCatalog "GET" 2 ["z", "a", "m"]) ≠
      .ok { respEmpty with
             status := 200
             contentLength := some 26
             bodyText := some "\x7b\"repositories\":[\"a\",\"m\"]\x7d" } := by
  refine ⟨?_, by decide, by decide⟩
  show List.Perm ["z", "a", "m"] (stZAM.manifests.map Prod.fst)
  decide

/-! ## Order facts for `sort.Strings` -/
theorem charsLeB_total : ∀ a b : List Char, charsLeB a b = true ∨ charsLeB b a = true := by
  intro a
  induction a with
  | nil => intro b; left; rfl
  | cons c cs ih =>
    intro b
    cases b with
    | nil => right; rfl
    | cons d ds =>
      by_cases hcd : c = d
      · subst hcd
        rcases ih ds with h | h
        · left; simpa [charsLeB] using h
        · right; simpa [charsLeB] using h
      · rcases lt_or_gt_of_ne hcd with h | h
        · left; simp [charsLeB, hcd, h]
        · right; simp [charsLeB, Ne.symm hcd, h]

theorem charsLeB_trans : ∀ a b c : List Char,
    charsLeB a b = true → charsLeB b c = true → charsLeB a c = true := by
  intro a
  induction a with
  | nil => intro b c _ _; rfl
  | cons x xs ih =>
    intro b c hab hbc
    cases b with
    | nil => simp [charsLeB] at hab
    | cons y ys =>
      cases c with
      | nil => simp [charsLeB] at hbc
      | cons z zs =>
        by_cases hxy : x = y
        · subst hxy
          by_cases hyz : x = z
          · subst hyz
            simp only [charsLeB, if_pos rfl] at hab hbc ⊢
            exact ih ys zs hab hbc
          · simp only [charsLeB, if_pos rfl] at hab
            simpa [charsLeB, hyz] using hbc
        · by_cases hyz : y = z
          · subst hyz
            simpa [charsLeB, hxy] using hab
          · have h1 : x < y := by simpa [charsLeB, hxy, decide_eq_true_eq] using hab
            have h2 : y < z := by simpa [charsLeB, hyz, decide_eq_true_eq] using hbc
            have h3 : x < z := lt_trans h1 h2
            simp [charsLeB, ne_of_lt h3, h3]

theorem charsLeB_antisymm : ∀ a b : List Char,
    charsLeB a b = true → charsLeB b a = true → a = b := by
  intro a
  induction a with
  | nil =>
    intro b _ hba
    cases b with
    | nil => rfl
    | cons d ds => simp [charsLeB] at hba
  | cons c cs ih =>
    intro b hab hba
    cases b with
    | nil => simp [charsLeB] at hab
    | cons d ds =>
      by_cases hcd : c = d
      · subst hcd
        simp only [charsLeB, if_pos rfl] at hab hba
        rw [ih ds hab hba]
      · have h1 : c < d := by simpa [charsLeB, hcd, decide_eq_true_eq] using hab
        have h2 : d < c := by simpa [charsLeB, Ne.symm hcd, decide_eq_true_eq] using hba
        exact absurd h2 (not_lt_of_gt h1)

/-- C5 amended: the catalog returns the lexicographically sorted list of
    the first `n` repositories in the backend's (unspecified) map iteration
    order — not the first `n` of the sorted order — so with repos `z`, `a`,
    `m` the result is deterministic only once `n` covers all repositories,
    in which case it is `{"repositories":["a","m","z"]}`. -/
theorem C5_catalog_sorted_when_cap_covers (iter : List String) (n : Nat)
    (hn : 3 ≤ n) (h : isIterationOf iter stZAM) :
    handleCatalog "GET" n iter =
      .ok { respEmpty with
             status := 200
             contentLength := some 30
             bodyText := some "\x7b\"repositories\":[\"a\",\"m\",\"z\"]\x7d" } := by
  have hperm : iter.Perm ["z", "a", "m"] := h
  have hlen : iter.length = 3 := hperm.length_eq
  have htake : iter.take n = iter := List.take_of_length_le (by omega)
  haveI : IsTotal String strLe := ⟨fun s t => charsLeB_total s.toList t.toList⟩
  haveI : IsTrans String strLe := ⟨fun s t u => charsLeB_trans s.toList t.toList u.toList⟩
  haveI : IsAntisymm String strLe :=
    ⟨fun s t h1 h2 => String.ext (charsLeB_antisymm s.toList t.toList h1 h2)⟩
  have hsort : sortStrings iter = ["a", "m", "z"] := by
    refine List.eq_of_perm_of_sorted
      ((List.perm_insertionSort strLe iter).trans (hperm.trans ?_))
      (List.sorted_insertionSort strLe iter) ?_
    · decide
    · decide
  have hcat : memCatalog iter n = ["a", "m", "z"] := by
    rw [memCatalog, htake]
    exact hsort
  rw [handleCatalog, if_pos rfl, hcat]
  decide

/-- Witness for `C5_catalog_sorted_when_cap_covers` at the iteration order
    `["m", "z", "a"]` and `n = 3`. -/
theorem C5_catalog_sorted_when_cap_covers_witness :
    handleCatalog "GET" 3 ["m", "z", "a"] =
      .ok { respEmpty with
             status := 200
             contentLength := some 30
             bodyText := some "\x7b\"repositories\":[\"a\",\"m\",\"z\"]\x7d" } :=
  C5_catalog_sorted_when_cap_covers ["m", "z", "a"] 3 (by decide)
    (by show List.Perm _ _; decide)

/-! ## Manifest store lemmas -/
theorem memGetManifest_putM_self (st : MemState) (repo key : String) (mf : Manifest) :
    memGetManifest (memPutManifest st repo key mf) repo key = some mf := by
  simp [memGetManifest, memPutManifest, lookupA_insertA_self]

theorem memGetManifest_putM_ne_key (st : MemState) (repo key k : String) (mf : Manifest)
    (h : k ≠ key) :
    memGetManifest (memPutManifest st repo key mf) repo k = memGetManifest st repo k := by
  simp only [memGetManifest, memPutManifest, lookupA_insertA_self, Option.bind]
  rw [lookupA_insertA_ne _ _ _ _ (Ne.symm h)]
  cases hrep : lookupA st.manifests repo with
  | none => simp [lookupA]
  | some inner => simp

theorem memGetManifest_putM_ne_repo (st : MemState) (repo r key k : String) (mf : Manifest)
    (h : r ≠ repo) :
    memGetManifest (memPutManifest st repo key mf) r k = memGetManifest st r k := by
  simp only [memGetManifest, memPutManifest]
  rw [lookupA_insertA_ne _ _ _ _ (Ne.symm h)]

/-- `TagManifest` is `PutManifest` of the manifest found under the digest. -/
theorem memTagManifest_eq_putM (st : MemState) (repo digest tag : String)
    (inner : List (String × Manifest)) (mf : Manifest)
    (h1 : lookupA st.manifests repo = some inner) (h2 : lookupA inner digest = some mf) :
    memTagManifest st repo digest tag = some (memPutManifest st repo tag mf) := by
  simp [memTagManifest, h1, h2, memPutManifest]

theorem invariant_putM (st : MemState) (repo key : String) (mf : Manifest)
    (hinv : manifestDigestInvariant st)
    (hkey : strHasPrefixB key "sha256:" = false ∨ hexDigest mf.blob = key) :
    manifestDigestInvariant (memPutManifest st repo key mf) := by
  intro r k mf' hlook hpre
  by_cases hr : r = repo
  · subst hr
    by_cases hk : k = key
    · subst hk
      rw [memGetManifest_putM_self] at hlook
      cases hlook
      rcases hkey with hkey | hkey
      · rw [hpre] at hkey
        cases hkey
      · exact hkey
    · rw [memGetManifest_putM_ne_key _ _ _ _ _ hk] at hlook
      exact hinv r k mf' hlook hpre
  · rw [memGetManifest_putM_ne_repo _ _ _ _ _ _ hr] at hlook
    exact hinv r k mf' hlook hpre

/-- C2 amended: a manifest PUT stores the body under its computed digest
    and then aliases it under the target unconditionally (the backend
    supports tagging), with no tag-versus-digest check; the hash-matches-
    key invariant is preserved exactly when the target is not a `sha256:`
    key different from the computed digest, and on success the manifest is
    retrievable under the target. -/
theorem C2_put_invariant_for_nondigest_targets
    (parse : List Nat → Except String IndexManifest)
    (repo target ct : String) (body : List Nat) (st : MemState)
    (hinv : manifestDigestInvariant st)
    (htarget : strHasPrefixB target "sha256:" = false ∨ target = hexDigest body) :
    manifestDigestInvariant (manifestsHandle parse "PUT" repo target ct body st).2 ∧
    ((manifestsHandle parse "PUT" repo target ct body st).1 =
        .ok { respEmpty with
               status := 201
               dockerContentDigest := some (hexDigest body) } →
      memGetManifest (manifestsHandle parse "PUT" repo target ct body st).2 repo target =
        some ⟨ct, body⟩) := by
  have hput : manifestDigestInvariant (memPutManifest st repo (hexDigest body) ⟨ct, body⟩) :=
    invariant_putM st repo (hexDigest body) ⟨ct, body⟩ hinv (Or.inr rfl)
  have htag : memTagManifest (memPutManifest st repo (hexDigest body) ⟨ct, body⟩) repo
      (hexDigest body) target =
      some (memPutManifest (memPutManifest st repo (hexDigest body) ⟨ct, body⟩) repo target
        ⟨ct, body⟩) := by
    apply memTagManifest_eq_putM
    · exact lookupA_insertA_self _ _ _
    · exact lookupA_insertA_self _ _ _
  have htag2 : manifestDigestInvariant
      (memPutManifest (memPutManifest st repo (hexDigest body) ⟨ct, body⟩) repo target
        ⟨ct, body⟩) := by
    apply invariant_putM _ _ _ _ hput
    rcases htarget with h | h
    · exact Or.inl h
    · exact Or.inr h.symm
  have hget : memGetManifest
      (memPutManifest (memPutManifest st repo (hexDigest body) ⟨ct, body⟩) repo target
        ⟨ct, body⟩) repo target = some ⟨ct, body⟩ :=
    memGetManifest_putM_self _ _ _ _
  by_cases hct : isIndexMT ct = true
  · cases hp : parse body with
    | error e =>
      have hrun : manifestsHandle parse "PUT" repo target ct body st =
          (.error ⟨400, "MANIFEST_INVALID", e⟩,
           memPutManifest st repo (hexDigest body) ⟨ct, body⟩) := by
        simp [manifestsHandle, hct, hp]
      rw [hrun]
      exact ⟨hput, fun hok => Except.noConfusion hok⟩
    | ok im =>
      cases hc : checkChildren (memPutManifest st repo (hexDigest body) ⟨ct, body⟩) repo
          im.manifests with
      | some e =>
        have hrun : manifestsHandle parse "PUT" repo target ct body st =
            (.error e, memPutManifest st repo (hexDigest body) ⟨ct, body⟩) := by
          simp [manifestsHandle, hct, hp, hc]
        rw [hrun]
        exact ⟨hput, fun hok => Except.noConfusion hok⟩
      | none =>
        have hrun : manifestsHandle parse "PUT" repo target ct body st =
            (.ok { respEmpty with
                    status := 201
                    dockerContentDigest := some (hexDigest body) },
             memPutManifest (memPutManifest st repo (hexDigest body) ⟨ct, body⟩) repo target
               ⟨ct, body⟩) := by
          simp [manifestsHandle, manifestsPutTag, hct, hp, hc, htag]
        rw [hrun]
        exact ⟨htag2, fun _ => hget⟩
  · have hrun : manifestsHandle parse "PUT" repo target ct body st =
        (.ok { respEmpty with
                status := 201
                dockerContentDigest := some (hexDigest body) },
         memPutManifest (memPutManifest st repo (hexDigest body) ⟨ct, body⟩) repo target
           ⟨ct, body⟩) := by
      simp [manifestsHandle, manifestsPutTag, hct, htag]
    rw [hrun]
    exact ⟨htag2, fun _ => hget⟩

/-- Witness for `C2_put_invariant_for_nondigest_targets`: PUT of `"x"`
    under tag `"latest"` into the empty registry. -/
theorem C2_put_invariant_for_nondigest_targets_witness :
    manifestDigestInvariant (manifestsHandle parseNone "PUT" "repo" "latest"
      "application/vnd.oci.image.manifest.v1+json" [120] initState).2 :=
  (C2_put_invariant_for_nondigest_targets parseNone "repo" "latest"
    "application/vnd.oci.image.manifest.v1+json" [120] initState
    (fun r k mf hlook _ => by simp [memGetManifest, lookupA, initState] at hlook)
    (Or.inl (by decide))).1

/-- C3 amended: a finalizing PUT (with a well-formed digest) always removes
    the upload id from the upload store — termination resets the id to the
    empty, fresh state — and against such a state a ranged PATCH whose
    start offset is nonzero fails with 416 `BLOB_UPLOAD_UNKNOWN`; a ranged
    PATCH with start 0, however, is accepted as a fresh upload (see the
    counterexample), because `StatUpload` reports size 0 rather than an
    error for unknown ids. -/
theorem C3_finalize_frees_id_and_nonzero_patch_416
    (st : MemState) (repo id digest rngId rngId' : String) (h : Hash)
    (body chunk : List Nat) (cl cl' : Int) (s e : Int)
    (hdig : digest ≠ "") (hparse : newHash digest = some h) (hs : s ≠ 0) :
    lookupA ((blobsHandle "PUT" repo id "uploads" digest .absent body cl rngId st).2).uploads
      id = none ∧
    (blobsHandle "PATCH" repo id "uploads" "" (.parsed s e) chunk cl' rngId'
        (blobsHandle "PUT" repo id "uploads" digest .absent body cl rngId st).2).1 =
      .error ⟨416, "BLOB_UPLOAD_UNKNOWN", "Your content range doesn't match what we have"⟩ := by
  have h2 : (blobsHandle "PUT" repo id "uploads" digest .absent body cl rngId st).2 =
      (memFinalizeUpload st id body h).2 := by
    simp only [blobsHandle, String.reduceEq, reduceIte, if_neg hdig, hparse]
    rcases hm : memFinalizeUpload st id body h with ⟨e | v, st'⟩ <;> rfl
  have hfin : ((memFinalizeUpload st id body h).2).uploads = eraseA st.uploads id := by
    simp only [memFinalizeUpload]
    split <;> rfl
  have hup : ((blobsHandle "PUT" repo id "uploads" digest .absent body cl rngId st).2).uploads =
      eraseA st.uploads id := by
    rw [h2]
    exact hfin
  have hnone : lookupA ((blobsHandle "PUT" repo id "uploads" digest .absent body cl
      rngId st).2).uploads id = none := by
    rw [hup]
    exact lookupA_eraseA_self _ _
  refine ⟨hnone, ?_⟩
  have hstat : memStatUpload (blobsHandle "PUT" repo id "uploads" digest .absent body cl
      rngId st).2 id = 0 := by
    simp [memStatUpload, hnone]
  set st2 := (blobsHandle "PUT" repo id "uploads" digest .absent body cl rngId st).2 with hst2
  simp [blobsHandle, hstat, hs]

/-- Witness for `C3_finalize_frees_id_and_nonzero_patch_416`: finalize the
    upload `"1"` holding `"he"`, then PATCH it at start offset 2. -/
theorem C3_finalize_frees_id_and_nonzero_patch_416_witness :
    lookupA ((blobsHandle "PUT" "r" "1" "uploads" (hexDigest [104, 101]) .absent [] 0 "0"
        stC3).2).uploads "1" = none ∧
    (blobsHandle "PATCH" "r" "1" "uploads" "" (.parsed 2 3) [104, 105] 2 "0"
        (blobsHandle "PUT" "r" "1" "uploads" (hexDigest [104, 101]) .absent [] 0 "0"
          stC3).2).1 =
      .error ⟨416, "BLOB_UPLOAD_UNKNOWN", "Your content range doesn't match what we have"⟩ :=
  C3_finalize_frees_id_and_nonzero_patch_416 stC3 "r" "1" (hexDigest [104, 101]) "0" "0"
    ⟨"sha256", String.mk (hexChars (sha256 [104, 101]))⟩ [] [104, 105] 0 2 2 3
    (hexDigest_ne_empty [104, 101]) (newHash_hexDigest [104, 101]) (by decide)

/-- C6: monolithic POST-with-digest of any body `B` succeeds with 201 and
    `Docker-Content-Digest: sha256:<hex(B)>`, and a subsequent GET of
    `/v2/<repo>/blobs/sha256:<hex(B)>` returns 200 with body `B`,
    `Content-Length = |B|` and the same `Docker-Content-Digest`. -/
theorem C6_blob_roundtrip_by_digest (st : MemState) (repo rngId rngId' : String)
    (B : List Nat) :
    (blobsHandle "POST" repo "uploads" "blobs" (hexDigest B) .absent B (B.length : Int) rngId
        st).1 =
      .ok { respEmpty with status := 201, dockerContentDigest := some (hexDigest B) } ∧
    (blobsHandle "GET" repo (hexDigest B) "blobs" "" .absent [] 0 rngId'
        (blobsHandle "POST" repo "uploads" "blobs" (hexDigest B) .absent B (B.length : Int)
          rngId st).2).1 =
      .ok { respEmpty with
             status := 200
             contentLength := some B.length
             dockerContentDigest := some (hexDigest B)
             body := some B } := by
  have hne : hexDigest B ≠ "" := hexDigest_ne_empty B
  have hnh := newHash_hexDigest B
  have hstr := hashStr_hexDigest B
  have hverify : verifyBytes B (B.length : Int) ⟨"sha256", String.mk (hexChars (sha256 B))⟩ =
      .ok B := by
    simp [verifyBytes, hstr]
  have hpost : blobsHandle "POST" repo "uploads" "blobs" (hexDigest B) .absent B
      (B.length : Int) rngId st =
      (.ok { respEmpty with status := 201, dockerContentDigest := some (hexDigest B) },
       { st with blobs := insertA st.blobs (hexDigest B) B }) := by
    simp [blobsHandle, hne, hnh, memPutVerified, hverify, hstr]
  have hget : (blobsHandle "GET" repo (hexDigest B) "blobs" "" .absent [] 0 rngId'
      { st with blobs := insertA st.blobs (hexDigest B) B }).1 =
      .ok { respEmpty with
             status := 200
             contentLength := some B.length
             dockerContentDigest := some (hexDigest B)
             body := some B } := by
    simp [blobsHandle, hnh, memStat, memGet, hstr, lookupA_insertA_self]
  constructor
  · rw [hpost]
  · rw [hpost]
    exact hget

theorem runPatches_state (repo id rngId : String) (cs : List (List Nat)) (st : MemState) :
    runPatches repo id rngId st cs =
      if cs.isEmpty then st
      else { st with
              uploads := insertA st.uploads id (((lookupA st.uploads id).getD []) ++
                cs.flatten) } := by
  induction cs generalizing st with
  | nil => simp [runPatches]
  | cons c cs ih =>
    have hpatch : (blobsHandle "PATCH" repo id "uploads" ""
        (.parsed (memStatUpload st id) (memStatUpload st id + c.length - 1)) c
        (c.length : Int) rngId st).2 =
        { st with uploads := insertA st.uploads id (((lookupA st.uploads id).getD []) ++ c) } := by
      simp [blobsHandle, memAppendUpload]
    rw [runPatches, hpatch, ih]
    cases cs with
    | nil => simp
    | cons c' cs' =>
      simp only [List.isEmpty_cons, if_false, List.flatten_cons]
      rw [lookupA_insertA_self, insertA_insertA]
      simp [List.append_assoc]

/-- The monolithic POST-with-digest run: always verifies (the digest is the
    body's) and stores the body under its digest. -/
theorem blobsHandlePost_digest (st : MemState) (repo rngId : String) (B : List Nat) :
    blobsHandle "POST" repo "uploads" "blobs" (hexDigest B) .absent B (B.length : Int) rngId
        st =
      (.ok { respEmpty with status := 201, dockerContentDigest := some (hexDigest B) },
       { st with blobs := insertA st.blobs (hexDigest B) B }) := by
  have hne : hexDigest B ≠ "" := hexDigest_ne_empty B
  have hnh := newHash_hexDigest B
  have hstr := hashStr_hexDigest B
  have hverify : verifyBytes B (B.length : Int) ⟨"sha256", String.mk (hexChars (sha256 B))⟩ =
      .ok B := by
    simp [verifyBytes, hstr]
  simp [blobsHandle, hne, hnh, memPutVerified, hverify, hstr]

/-- The finalizing PUT (empty trailing body) of an upload currently holding
    exactly `B`, against the digest of `B`: verifies, erases the upload and
    stores `B`. -/
theorem blobsHandlePut_finalize (st : MemState) (repo id rngId : String) (B : List Nat)
    (hup : (lookupA st.uploads id).getD [] = B) :
    blobsHandle "PUT" repo id "uploads" (hexDigest B) .absent [] 0 rngId st =
      (.ok { respEmpty with status := 201, dockerContentDigest := some (hexDigest B) },
       { st with
          blobs := insertA st.blobs (hexDigest B) B
          uploads := eraseA st.uploads id }) := by
  have hne : hexDigest B ≠ "" := hexDigest_ne_empty B
  have hnh := newHash_hexDigest B
  have hstr := hashStr_hexDigest B
  have hverify : verifyBytes B (B.length : Int) ⟨"sha256", String.mk (hexChars (sha256 B))⟩ =
      .ok B := by
    simp [verifyBytes, hstr]
  have hfin : memFinalizeUpload st id [] ⟨"sha256", String.mk (hexChars (sha256 B))⟩ =
      (.ok (), { st with
                  blobs := insertA st.blobs (hexDigest B) B
                  uploads := eraseA st.uploads id }) := by
    simp [memFinalizeUpload, hup, hverify, hstr]
  simp [blobsHandle, hne, hnh, hfin, hstr]

/-- C7: for any partitioning of `B` into chunks, POST (begin, which leaves
    the state unchanged) + in-order ranged PATCHes + finalizing PUT with
    `digest=sha256:<hex(B)>` is exactly the monolithic POST-with-digest of
    `B`: the same 201 response and the same final state, so in particular
    the same blob store. `id` is the upload id minted by the begin-POST,
    hence fresh in `st`. -/
theorem C7_chunked_equals_monolithic (st : MemState) (repo id rngId rngId' : String)
    (chunks : List (List Nat)) (hfresh : lookupA st.uploads id = none) :
    blobsHandle "PUT" repo id "uploads" (hexDigest chunks.flatten) .absent [] 0 rngId
        (runPatches repo id rngId' st chunks) =
      blobsHandle "POST" repo "uploads" "blobs" (hexDigest chunks.flatten) .absent
        chunks.flatten (chunks.flatten.length : Int) rngId st := by
  rw [runPatches_state, blobsHandlePost_digest]
  cases chunks with
  | nil =>
    simp only [List.isEmpty_nil, List.flatten_nil, if_true]
    rw [blobsHandlePut_finalize st repo id rngId [] (by simp [hfresh])]
    rw [eraseA_of_lookup_none _ _ hfresh]
  | cons c cs =>
    simp only [List.isEmpty_cons, Bool.false_eq_true, if_false, hfresh, Option.getD_none,
      List.nil_append]
    rw [blobsHandlePut_finalize _ repo id rngId ((c :: cs).flatten)
      (by rw [lookupA_insertA_self]; rfl)]
    rw [eraseA_insertA_fresh _ _ _ hfresh]

/-- Witness for `C7_chunked_equals_monolithic`: `"hello"` uploaded as the
    chunks `"he"`, `"llo"` under the fresh id `"7"` from the empty state. -/
theorem C7_chunked_equals_monolithic_witness :
    blobsHandle "PUT" "demo/app" "7" "uploads"
        (hexDigest [[104, 101], [108, 108, 111]].flatten) .absent [] 0 "0"
        (runPatches "demo/app" "7" "0" initState [[104, 101], [108, 108, 111]]) =
      blobsHandle "POST" "demo/app" "uploads" "blobs"
        (hexDigest [[104, 101], [108, 108, 111]].flatten) .absent
        [[104, 101], [108, 108, 111]].flatten
        ([[104, 101], [108, 108, 111]].flatten.length : Int) "0" initState :=
  C7_chunked_equals_monolithic initState "demo/app" "7" "0" "0"
    [[104, 101], [108, 108, 111]] (by decide)

theorem checkChildren_finds (st1 : MemState) (repo : String) :
    ∀ ds : List Descriptor, (∃ d ∈ ds, childMissing st1 repo d) →
      ∃ d', d' ∈ ds ∧ childMissing st1 repo d' ∧
        checkChildren st1 repo ds =
          some ⟨404, "MANIFEST_UNKNOWN", subManifestMsg d'.digest⟩ := by
  intro ds
  induction ds with
  | nil =>
    rintro ⟨d, hd, _⟩
    simp at hd
  | cons d0 ds ih =>
    rintro ⟨d, hd, hmiss⟩
    by_cases hdist : isDistributableMT d0.mediaType = true
    · by_cases hmt : (isIndexMT d0.mediaType || isImageMT d0.mediaType) = true
      · cases hlook : memGetManifest st1 repo d0.digest.str with
        | none =>
          refine ⟨d0, by simp, ⟨hdist, hmt, hlook⟩, ?_⟩
          simp [checkChildren, hdist, hmt, hlook]
        | some mf =>
          have hdds : d ∈ ds := by
            rcases List.mem_cons.mp hd with rfl | hin
            · rw [hmiss.2.2] at hlook
              cases hlook
            · exact hin
          obtain ⟨d', hmem, hm, heq⟩ := ih ⟨d, hdds, hmiss⟩
          refine ⟨d', List.mem_cons_of_mem _ hmem, hm, ?_⟩
          rw [← heq]
          simp [checkChildren, hdist, hmt, hlook]
      · have hdds : d ∈ ds := by
          rcases List.mem_cons.mp hd with rfl | hin
          · exact absurd hmiss.2.1 hmt
          · exact hin
        obtain ⟨d', hmem, hm, heq⟩ := ih ⟨d, hdds, hmiss⟩
        refine ⟨d', List.mem_cons_of_mem _ hmem, hm, ?_⟩
        rw [← heq]
        simp [checkChildren, hdist, hmt]
    · have hdds : d ∈ ds := by
        rcases List.mem_cons.mp hd with rfl | hin
        · exact absurd hmiss.1 hdist
        · exact hin
      obtain ⟨d', hmem, hm, heq⟩ := ih ⟨d, hdds, hmiss⟩
      refine ⟨d', List.mem_cons_of_mem _ hmem, hm, ?_⟩
      rw [← heq]
      simp [checkChildren, hdist]

/-- C8: a PUT whose content type is an index media type and whose parsed
    body contains a distributable child descriptor of manifest or index
    media type that is not stored in this repository (and is not the index
    itself) is rejected with 404 `MANIFEST_UNKNOWN` and a message naming a
    missing child's digest. -/
theorem C8_index_put_missing_child_404
    (parse : List Nat → Except String IndexManifest)
    (repo target ct : String) (body : List Nat) (st : MemState) (im : IndexManifest)
    (hct : isIndexMT ct = true) (hparse : parse body = .ok im)
    (d : Descriptor) (hd : d ∈ im.manifests)
    (hdist : isDistributableMT d.mediaType = true)
    (hmt : (isIndexMT d.mediaType || isImageMT d.mediaType) = true)
    (hmiss : memGetManifest st repo d.digest.str = none)
    (hself : d.digest.str ≠ hexDigest body) :
    ∃ d' : Descriptor, d' ∈ im.manifests ∧
      isDistributableMT d'.mediaType = true ∧
      (isIndexMT d'.mediaType || isImageMT d'.mediaType) = true ∧
      memGetManifest st repo d'.digest.str = none ∧
      (manifestsHandle parse "PUT" repo target ct body st).1 =
        .error ⟨404, "MANIFEST_UNKNOWN",
          "Sub-manifest \"" ++ d'.digest.str ++ "\" not found"⟩ := by
  have hmiss1 : memGetManifest (memPutManifest st repo (hexDigest body) ⟨ct, body⟩) repo
      d.digest.str = none := by
    rw [memGetManifest_putM_ne_key _ _ _ _ _ hself]
    exact hmiss
  obtain ⟨d', hmem, hm, heq⟩ := checkChildren_finds
    (memPutManifest st repo (hexDigest body) ⟨ct, body⟩) repo im.manifests
    ⟨d, hd, hdist, hmt, hmiss1⟩
  have hself' : d'.digest.str ≠ hexDigest body := by
    intro he
    have := hm.2.2
    rw [he, memGetManifest_putM_self] at this
    cases this
  have hmiss' : memGetManifest st repo d'.digest.str = none := by
    have := hm.2.2
    rwa [memGetManifest_putM_ne_key _ _ _ _ _ hself'] at this
  refine ⟨d', hmem, hm.1, hm.2.1, hmiss', ?_⟩
  simp [manifestsHandle, hct, hparse, heq, subManifestMsg, Hash.str]

/-- Witness for `C8_index_put_missing_child_404`: an index referencing the
    all-`a` digest as an image manifest child, PUT into the empty registry. -/
theorem C8_index_put_missing_child_404_witness :
    ∃ d' : Descriptor,
      d' ∈ (IndexManifest.mk 2 "application/vnd.oci.image.index.v1+json"
        [⟨"application/vnd.oci.image.manifest.v1+json", 0,
          ⟨"sha256", "aaaaaaaaaaaaaaaaaaaaaaaaaaaaaaaaaaaaaaaaaaaaaaaaaaaaaaaaaaaaaaaa"⟩⟩]).manifests ∧
      isDistributableMT d'.mediaType = true ∧
      (isIndexMT d'.mediaType || isImageMT d'.mediaType) = true ∧
      memGetManifest initState "x/img" d'.digest.str = none ∧
      (manifestsHandle
          (fun _ => .ok (IndexManifest.mk 2 "application/vnd.oci.image.index.v1+json"
            [⟨"application/vnd.oci.image.manifest.v1+json", 0,
              ⟨"sha256", "aaaaaaaaaaaaaaaaaaaaaaaaaaaaaaaaaaaaaaaaaaaaaaaaaaaaaaaaaaaaaaaa"⟩⟩]))
          "PUT" "x/img" "latest" "application/vnd.oci.image.index.v1+json" [123, 125]
          initState).1 =
        .error ⟨404, "MANIFEST_UNKNOWN",
          "Sub-manifest \"" ++ d'.digest.str ++ "\" not found"⟩ :=
  C8_index_put_missing_child_404 _ "x/img" "latest"
    "application/vnd.oci.image.index.v1+json" [123, 125] initState _
    (by decide) rfl
    ⟨"application/vnd.oci.image.manifest.v1+json", 0,
      ⟨"sha256", "aaaaaaaaaaaaaaaaaaaaaaaaaaaaaaaaaaaaaaaaaaaaaaaaaaaaaaaaaaaaaaaa"⟩⟩
    (by decide) (by decide) (by decide) (by decide) (by decide)

/-- C9: when an index PUT is rejected with 404 `MANIFEST_UNKNOWN` because a
    referenced child manifest is missing, the index bytes were already
    stored under their computed digest before the check ran: the rejection
    does not roll the store back, and a GET of
    `/v2/<repo>/manifests/sha256:<digest-of-index>` on the resulting state
    succeeds and returns the rejected index. -/
theorem C9_rejected_index_still_stored
    (parse : List Nat → Except String IndexManifest)
    (repo target ct : String) (body : List Nat) (st : MemState) (im : IndexManifest)
    (hct : isIndexMT ct = true) (hparse : parse body = .ok im)
    (d : Descriptor) (hd : d ∈ im.manifests)
    (hdist : isDistributableMT d.mediaType = true)
    (hmt : (isIndexMT d.mediaType || isImageMT d.mediaType) = true)
    (hmiss : memGetManifest st repo d.digest.str = none)
    (hself : d.digest.str ≠ hexDigest body) :
    (∃ e, (manifestsHandle parse "PUT" repo target ct body st).1 = .error e ∧
      e.status = 404 ∧ e.code = "MANIFEST_UNKNOWN") ∧
    memGetManifest (manifestsHandle parse "PUT" repo target ct body st).2 repo
      (hexDigest body) = some ⟨ct, body⟩ ∧
    (manifestsHandle parse "GET" repo (hexDigest body) ct []
        (manifestsHandle parse "PUT" repo target ct body st).2).1 =
      .ok { respEmpty with
             status := 200
             contentLength := some body.length
             contentType := some ct
             dockerContentDigest := some (hexDigest body)
             body := some body } := by
  have hmiss1 : memGetManifest (memPutManifest st repo (hexDigest body) ⟨ct, body⟩) repo
      d.digest.str = none := by
    rw [memGetManifest_putM_ne_key _ _ _ _ _ hself]
    exact hmiss
  obtain ⟨d', hmem, hm, heq⟩ := checkChildren_finds
    (memPutManifest st repo (hexDigest body) ⟨ct, body⟩) repo im.manifests
    ⟨d, hd, hdist, hmt, hmiss1⟩
  have hrun : manifestsHandle parse "PUT" repo target ct body st =
      (.error ⟨404, "MANIFEST_UNKNOWN", subManifestMsg d'.digest⟩,
       memPutManifest st repo (hexDigest body) ⟨ct, body⟩) := by
    simp [manifestsHandle, hct, hparse, heq]
  rw [hrun]
  refine ⟨⟨_, rfl, rfl, rfl⟩, memGetManifest_putM_self _ _ _ _, ?_⟩
  simp [manifestsHandle, ite_self, memGetManifest_putM_self]

/-- Witness for `C9_rejected_index_still_stored` at the same input as the
    C8 witness. -/
theorem C9_rejected_index_still_stored_witness :
    (∃ e, (manifestsHandle
        (fun _ => .ok (IndexManifest.mk 2 "application/vnd.oci.image.index.v1+json"
          [⟨"application/vnd.oci.image.manifest.v1+json", 0,
            ⟨"sha256", "aaaaaaaaaaaaaaaaaaaaaaaaaaaaaaaaaaaaaaaaaaaaaaaaaaaaaaaaaaaaaaaa"⟩⟩]))
        "PUT" "x/img" "latest" "application/vnd.oci.image.index.v1+json" [123, 125]
        initState).1 = .error e ∧ e.status = 404 ∧ e.code = "MANIFEST_UNKNOWN") ∧
    memGetManifest (manifestsHandle
        (fun _ => .ok (IndexManifest.mk 2 "application/vnd.oci.image.index.v1+json"
          [⟨"application/vnd.oci.image.manifest.v1+json", 0,
            ⟨"sha256", "aaaaaaaaaaaaaaaaaaaaaaaaaaaaaaaaaaaaaaaaaaaaaaaaaaaaaaaaaaaaaaaa"⟩⟩]))
        "PUT" "x/img" "latest" "application/vnd.oci.image.index.v1+json" [123, 125]
        initState).2 "x/img" (hexDigest [123, 125]) =
      some ⟨"application/vnd.oci.image.index.v1+json", [123, 125]⟩ ∧
    (manifestsHandle
        (fun _ => .ok (IndexManifest.mk 2 "application/vnd.oci.image.index.v1+json"
          [⟨"application/vnd.oci.image.manifest.v1+json", 0,
            ⟨"sha256", "aaaaaaaaaaaaaaaaaaaaaaaaaaaaaaaaaaaaaaaaaaaaaaaaaaaaaaaaaaaaaaaa"⟩⟩]))
        "GET" "x/img" (hexDigest [123, 125]) "application/vnd.oci.image.index.v1+json" []
        (manifestsHandle
          (fun _ => .ok (IndexManifest.mk 2 "application/vnd.oci.image.index.v1+json"
            [⟨"application/vnd.oci.image.manifest.v1+json", 0,
              ⟨"sha256", "aaaaaaaaaaaaaaaaaaaaaaaaaaaaaaaaaaaaaaaaaaaaaaaaaaaaaaaaaaaaaaaa"⟩⟩]))
          "PUT" "x/img" "latest" "application/vnd.oci.image.index.v1+json" [123, 125]
          initState).2).1 =
      .ok { respEmpty with
             status := 200
             contentLength := some ([123, 125] : List Nat).length
             contentType := some "application/vnd.oci.image.index.v1+json"
             dockerContentDigest := some (hexDigest [123, 125])
             body := some [123, 125] } :=
  C9_rejected_index_still_stored _ "x/img" "latest"
    "application/vnd.oci.image.index.v1+json" [123, 125] initState _
    (by decide) rfl
    ⟨"application/vnd.oci.image.manifest.v1+json", 0,
      ⟨"sha256", "aaaaaaaaaaaaaaaaaaaaaaaaaaaaaaaaaaaaaaaaaaaaaaaaaaaaaaaaaaaaaaaa"⟩⟩
    (by decide) (by decide) (by decide) (by decide) (by decide)

theorem memDeleteManifest_found (st : MemState) (repo key : String)
    (inner : List (String × Manifest)) (mf : Manifest)
    (h1 : lookupA st.manifests repo = some inner) (h2 : lookupA inner key = some mf) :
    memDeleteManifest st repo key =
      some { st with manifests := insertA st.manifests repo (eraseA inner key) } := by
  simp [memDeleteManifest, h1, h2]

/-- C10: `TagManifest` stores an independent copy of the manifest under the
    tag key, so after PUT of `M` under tag `t`, DELETE of the digest key
    returns 202, removes only the `(repo, digest)` entry (every other
    `(repo, key)` entry is unchanged), and GET by the tag still returns
    `M`; symmetrically, DELETE of the tag leaves the digest entry intact. -/
theorem C10_tag_and_digest_entries_independent
    (parse : List Nat → Except String IndexManifest)
    (repo t ct : String) (M : List Nat) (st : MemState)
    (hct : isIndexMT ct = false) (ht : t ≠ hexDigest M) :
    (manifestsHandle parse "DELETE" repo (hexDigest M) ct []
        (manifestsHandle parse "PUT" repo t ct M st).2).1 =
      .ok { respEmpty with status := 202 } ∧
    memGetManifest (manifestsHandle parse "DELETE" repo (hexDigest M) ct []
        (manifestsHandle parse "PUT" repo t ct M st).2).2 repo t = some ⟨ct, M⟩ ∧
    memGetManifest (manifestsHandle parse "DELETE" repo (hexDigest M) ct []
        (manifestsHandle parse "PUT" repo t ct M st).2).2 repo (hexDigest M) = none ∧
    (∀ r k, r ≠ repo ∨ k ≠ hexDigest M →
      memGetManifest (manifestsHandle parse "DELETE" repo (hexDigest M) ct []
          (manifestsHandle parse "PUT" repo t ct M st).2).2 r k =
        memGetManifest (manifestsHandle parse "PUT" repo t ct M st).2 r k) ∧
    (manifestsHandle parse "GET" repo t ct []
        (manifestsHandle parse "DELETE" repo (hexDigest M) ct []
          (manifestsHandle parse "PUT" repo t ct M st).2).2).1 =
      .ok { respEmpty with
             status := 200
             contentLength := some M.length
             contentType := some ct
             dockerContentDigest := some (hexDigest M)
             body := some M } ∧
    memGetManifest (manifestsHandle parse "DELETE" repo t ct []
        (manifestsHandle parse "PUT" repo t ct M st).2).2 repo (hexDigest M) =
      some ⟨ct, M⟩ ∧
    (∀ r k, r ≠ repo ∨ k ≠ t →
      memGetManifest (manifestsHandle parse "DELETE" repo t ct []
          (manifestsHandle parse "PUT" repo t ct M st).2).2 r k =
        memGetManifest (manifestsHandle parse "PUT" repo t ct M st).2 r k) := by
  have htag : memTagManifest (memPutManifest st repo (hexDigest M) ⟨ct, M⟩) repo
      (hexDigest M) t =
      some (memPutManifest (memPutManifest st repo (hexDigest M) ⟨ct, M⟩) repo t ⟨ct, M⟩) := by
    apply memTagManifest_eq_putM
    · exact lookupA_insertA_self _ _ _
    · exact lookupA_insertA_self _ _ _
  have hrun : manifestsHandle parse "PUT" repo t ct M st =
      (.ok { respEmpty with status := 201, dockerContentDigest := some (hexDigest M) },
       memPutManifest (memPutManifest st repo (hexDigest M) ⟨ct, M⟩) repo t ⟨ct, M⟩) := by
    simp [manifestsHandle, manifestsPutTag, hct, htag]
  rw [hrun]
  have hman : (memPutManifest (memPutManifest st repo (hexDigest M) ⟨ct, M⟩) repo t
      ⟨ct, M⟩).manifests =
      insertA st.manifests repo
        (insertA (insertA ((lookupA st.manifests repo).getD []) (hexDigest M) ⟨ct, M⟩) t
          ⟨ct, M⟩) := by
    simp only [memPutManifest, lookupA_insertA_self, Option.getD_some, insertA_insertA]
  have houter : lookupA (memPutManifest (memPutManifest st repo (hexDigest M) ⟨ct, M⟩) repo t
      ⟨ct, M⟩).manifests repo =
      some (insertA (insertA ((lookupA st.manifests repo).getD []) (hexDigest M) ⟨ct, M⟩) t
        ⟨ct, M⟩) := by
    rw [hman]
    exact lookupA_insertA_self _ _ _
  have hinll : lookupA (insertA (insertA ((lookupA st.manifests repo).getD [])
      (hexDigest M) ⟨ct, M⟩) t ⟨ct, M⟩) (hexDigest M) = some ⟨ct, M⟩ := by
    rw [lookupA_insertA_ne _ _ _ _ ht]
    exact lookupA_insertA_self _ _ _
  have hinlt : lookupA (insertA (insertA ((lookupA st.manifests repo).getD [])
      (hexDigest M) ⟨ct, M⟩) t ⟨ct, M⟩) t = some ⟨ct, M⟩ :=
    lookupA_insertA_self _ _ _
  have hdelD := memDeleteManifest_found _ repo (hexDigest M) _ _ houter hinll
  have hdelT := memDeleteManifest_found _ repo t _ _ houter hinlt
  have hrunD : manifestsHandle parse "DELETE" repo (hexDigest M) ct []
      (memPutManifest (memPutManifest st repo (hexDigest M) ⟨ct, M⟩) repo t ⟨ct, M⟩) =
      (.ok { respEmpty with status := 202 },
       { memPutManifest (memPutManifest st repo (hexDigest M) ⟨ct, M⟩) repo t ⟨ct, M⟩ with
          manifests := insertA (memPutManifest (memPutManifest st repo (hexDigest M)
              ⟨ct, M⟩) repo t ⟨ct, M⟩).manifests repo
            (eraseA (insertA (insertA ((lookupA st.manifests repo).getD []) (hexDigest M)
              ⟨ct, M⟩) t ⟨ct, M⟩) (hexDigest M)) }) := by
    simp [manifestsHandle, hdelD]
  have hrunT : manifestsHandle parse "DELETE" repo t ct []
      (memPutManifest (memPutManifest st repo (hexDigest M) ⟨ct, M⟩) repo t ⟨ct, M⟩) =
      (.ok { respEmpty with status := 202 },
       { memPutManifest (memPutManifest st repo (hexDigest M) ⟨ct, M⟩) repo t ⟨ct, M⟩ with
          manifests := insertA (memPutManifest (memPutManifest st repo (hexDigest M)
              ⟨ct, M⟩) repo t ⟨ct, M⟩).manifests repo
            (eraseA (insertA (insertA ((lookupA st.manifests repo).getD []) (hexDigest M)
              ⟨ct, M⟩) t ⟨ct, M⟩) t) }) := by
    simp [manifestsHandle, hdelT]
  rw [hrunD, hrunT]
  have hgetT : memGetManifest
      { memPutManifest (memPutManifest st repo (hexDigest M) ⟨ct, M⟩) repo t ⟨ct, M⟩ with
         manifests := insertA (memPutManifest (memPutManifest st repo (hexDigest M)
             ⟨ct, M⟩) repo t ⟨ct, M⟩).manifests repo
           (eraseA (insertA (insertA ((lookupA st.manifests repo).getD []) (hexDigest M)
             ⟨ct, M⟩) t ⟨ct, M⟩) (hexDigest M)) } repo t = some ⟨ct, M⟩ := by
    simp only [memGetManifest, lookupA_insertA_self, Option.some_bind]
    rw [lookupA_eraseA_ne _ _ _ (Ne.symm ht)]
    exact hinlt
  refine ⟨rfl, hgetT, ?_, ?_, ?_, ?_, ?_⟩
  · simp only [memGetManifest, lookupA_insertA_self, Option.some_bind]
    exact lookupA_eraseA_self _ _
  · intro r k hrk
    by_cases hr : r = repo
    · subst hr
      have hk : k ≠ hexDigest M := by
        rcases hrk with h | h
        · exact absurd rfl h
        · exact h
      simp only [memGetManifest, lookupA_insertA_self, Option.some_bind, houter]
      rw [lookupA_eraseA_ne _ _ _ (Ne.symm hk)]
    · simp only [memGetManifest]
      rw [lookupA_insertA_ne _ _ _ _ (Ne.symm hr)]
  · simp [manifestsHandle, ite_self, hgetT]
  · simp only [memGetManifest, lookupA_insertA_self, Option.some_bind]
    rw [lookupA_eraseA_ne _ _ _ ht]
    exact hinll
  · intro r k hrk
    by_cases hr : r = repo
    · subst hr
      have hk : k ≠ t := by
        rcases hrk with h | h
        · exact absurd rfl h
        · exact h
      simp only [memGetManifest, lookupA_insertA_self, Option.some_bind, houter]
      rw [lookupA_eraseA_ne _ _ _ (Ne.symm hk)]
    · simp only [memGetManifest]
      rw [lookupA_insertA_ne _ _ _ _ (Ne.symm hr)]

/-- Witness for `C10_tag_and_digest_entries_independent`: `"{}"` PUT under
    tag `"latest"` in `x/img`, then DELETE of its digest. -/
theorem C10_tag_and_digest_entries_independent_witness :
    (manifestsHandle parseNone "DELETE" "x/img" (hexDigest [123, 125])
        "application/vnd.oci.image.manifest.v1+json" []
        (manifestsHandle parseNone "PUT" "x/img" "latest"
          "application/vnd.oci.image.manifest.v1+json" [123, 125] initState).2).1 =
      .ok { respEmpty with status := 202 } ∧
    memGetManifest (manifestsHandle parseNone "DELETE" "x/img" (hexDigest [123, 125])
        "application/vnd.oci.image.manifest.v1+json" []
        (manifestsHandle parseNone "PUT" "x/img" "latest"
          "application/vnd.oci.image.manifest.v1+json" [123, 125] initState).2).2 "x/img"
      "latest" = some ⟨"application/vnd.oci.image.manifest.v1+json", [123, 125]⟩ :=
  ⟨(C10_tag_and_digest_entries_independent parseNone "x/img" "latest"
      "application/vnd.oci.image.manifest.v1+json" [123, 125] initState (by decide)
      (by decide)).1,
   (C10_tag_and_digest_entries_independent parseNone "x/img" "latest"
      "application/vnd.oci.image.manifest.v1+json" [123, 125] initState (by decide)
      (by decide)).2.1⟩

end Reg
